import Mathlib

/-!
Verification of the vis-framework indexer layer.

This file gives a shallow embedding, in Lean 4, of the parts of the
vis-framework that its specification talks about:

* the `Indexer.make_return` table-construction operation
  (src/vizitka/indexers/indexer.py), together with the pandas
  `concat(axis=1)` outer-join alignment semantics it relies on;
* the pairwise `IntervalIndexer` and its cell function `real_indexer`
  (src/analyzers/indexers/interval.py), together with a model of the
  music21 interval-naming conventions that `real_indexer` calls into;
* the dissonance-classification family
  (src/vis/analyzers/indexers/dissonance.py): `DissonanceIndexer`
  (`nan_consonance`, `special_fourths`), `SuspensionIndexer`,
  `NotaCambiataIndexer`, and `reconciliation_func`;
* the `Windexer` constructor (src/vis/analyzers/indexers/windexer.py).

Python `NaN` cells are embedded as `Val.na`, strings as `Val.s`, and
numbers as `Val.q`; fallible operations return `Except`.
-/

namespace Vis

/-- A pandas cell value as the indexers use it: `na` is numpy NaN (the
"absent" marker), `s` is a string token (interval names, classification
labels, the distinguished `"Rest"` token), `q` is a numeric value. -/
inductive Val
  | na : Val
  | s (str : String) : Val
  | q (x : ℚ) : Val
deriving DecidableEq, Repr

/-- One per-voice sparse series: the (offset, value) pairs of a
`pandas.Series` indexed by score offsets, in index order. -/
structure Series where
  entries : List (ℚ × Val)
deriving DecidableEq, Repr

/-- The offset axis of a series. -/
def Series.offsets (se : Series) : List ℚ := se.entries.map Prod.fst

/-- The value a sparse series contributes at an axis offset: its stored
value when the offset is present, NaN otherwise.  This is what pandas
reindexing does to each column when `concat(axis=1)` aligns columns on
the union axis. -/
def findVal : List (ℚ × Val) → ℚ → Val
  | [], _ => .na
  | e :: rest, o => if e.1 = o then e.2 else findVal rest o

/-- The union of two ascending offset indexes, as `pandas.Index.union`
computes it for monotonic indexes: an order-preserving merge that keeps
a single copy of offsets present in both. -/
def mergeUnion : List ℚ → List ℚ → List ℚ
  | [], l2 => l2
  | l1, [] => l1
  | a :: l1, b :: l2 =>
    if a < b then a :: mergeUnion l1 (b :: l2)
    else if b < a then b :: mergeUnion (a :: l1) l2
    else a :: mergeUnion l1 l2
termination_by l1 l2 => l1.length + l2.length

/-- An output table: a shared offset axis, the second-level column
labels of the MultiIndex, and one value list per column, each parallel
to the axis. -/
structure DataFrame where
  names : List String
  axis : List ℚ
  cols : List (List Val)
deriving DecidableEq, Repr

/-- The combined offset axis `pandas.concat(axis=1)` computes: the
running `Index.union` of the input series' indexes. -/
def axisFold (sers : List Series) : List ℚ :=
  sers.foldl (fun acc se => mergeUnion acc se.offsets) []

/-- Embeds `pandas.concat(indices, axis=1)` as `Indexer.make_return` uses it:
the output axis is the running union of the input indexes, and every
input series is reindexed onto that axis, absent offsets becoming NaN.
Column labels are attached afterwards by `make_return`. -/
def concatAxis1 (sers : List Series) : DataFrame where
  names := []
  axis := axisFold sers
  cols := sers.map (fun se => (axisFold sers).map (findVal se.entries))

/-- The `indices` argument of `Indexer.make_return`: either an
already-assembled `DataFrame` or a list of per-column `Series`. -/
inductive Indices
  | df (d : DataFrame) : Indices
  | sl (ls : List Series) : Indices

/-- Error text `Indexer._MAKE_RETURN_INDEX_ERR` (the typo is the source's). -/
def MAKE_RETURN_INDEX_ERR : String :=
  "Indexer.make_return(): arguments must have the same legnth."

/-- Embeds `Indexer.make_return(labels, indices)`
(src/vizitka/indexers/indexer.py, lines 186-224).  A `DataFrame` input
is passed through; a list input is length-checked against `labels` —
raising `IndexError` on mismatch, before `pandas.concat` runs — and then
concatenated on axis 1.  In both branches the column labels are replaced
by the MultiIndex built from `labels` (we keep its part-level). -/
def make_return (labels : List String) (indices : Indices) :
    Except String DataFrame :=
  match indices with
  | .df d => .ok { d with names := labels }
  | .sl ls =>
    if labels.length ≠ ls.length then .error MAKE_RETURN_INDEX_ERR
    else
      let ret := concatAxis1 ls
      .ok { ret with names := labels }

/-- The offset axis that the spec's alignment-union property describes:
the sorted, duplicate-free union of all the input columns' offsets.
This definition follows the sentence "the aligned table's offset axis
equals sorted(A ∪ B), with no duplicates and no omissions", to be
compared against the axis `make_return`/`concatAxis1` actually builds. -/
def specUnionAxis (sers : List Series) : List ℚ :=
  (((sers.map Series.offsets).foldr (· ++ ·) []).insertionSort (· ≤ ·)).dedup

/- ------------------------------------------------------------------ -/
/- Windexer (src/vis/analyzers/indexers/windexer.py)                   -/
/- ------------------------------------------------------------------ -/

/-- The `Windexer` settings dict; its only recognized key. -/
structure WindexerSettings where
  window_size : ℕ
deriving DecidableEq, Repr

/-- Default settings `Windexer.default_settings`. -/
def Windexer_default_settings : WindexerSettings := ⟨4⟩

/-- Embeds `Windexer.__init__` (src/vis/analyzers/indexers/windexer.py, lines
50-69), reduced to its settings validation: with `settings=None` the
defaults are adopted with no check at all; with an explicit settings
dict, a bare `RuntimeError` is raised when `window_size` exceeds the
number of rows of the input, and otherwise the dict is adopted.
`score_len` is Python's `len(score)`, the input's row count. -/
def Windexer_init (score_len : ℕ) (settings : Option WindexerSettings) :
    Except Unit WindexerSettings :=
  match settings with
  | none => .ok Windexer_default_settings
  | some st => if st.window_size > score_len then .error () else .ok st

/- ------------------------------------------------------------------ -/
/- Windowed classifier constructors (dissonance.py)                    -/
/- ------------------------------------------------------------------ -/

/-- Error text `SuspensionIndexer._TOO_SHORT_ERROR`. -/
def SUSP_TOO_SHORT_ERROR : String :=
  "SuspensionIndexer: input must have at least 3 events"

/-- Error text `NotaCambiataIndexer._TOO_SHORT_ERROR`. -/
def CAMB_TOO_SHORT_ERROR : String :=
  "NotaCambiataIndexer: input must have at least 4 events"

/-- The length check of `SuspensionIndexer.__init__`
(src/vis/analyzers/indexers/dissonance.py, lines 950-952): after the
superclass type validation, a `RuntimeError` is raised in the
constructor when the input has fewer than 3 event offsets. -/
def SuspensionIndexer_init (num_offsets : ℕ) : Except String Unit :=
  if num_offsets < 3 then .error SUSP_TOO_SHORT_ERROR else .ok ()

/-- The length check of `NotaCambiataIndexer.__init__`
(src/vis/analyzers/indexers/dissonance.py, lines 1190-1193): a
`RuntimeError` is raised in the constructor when the input has fewer
than 4 event offsets. -/
def NotaCambiataIndexer_init (num_offsets : ℕ) : Except String Unit :=
  if num_offsets < 4 then .error CAMB_TOO_SHORT_ERROR else .ok ()

/- ------------------------------------------------------------------ -/
/- Part-combination labels                                             -/
/- ------------------------------------------------------------------ -/

/-- First field of a separator-split string, Python `s.split(sep)[0]`:
the characters before the first separator. -/
def splitField1 (sep : Char) (s : String) : String :=
  String.mk (s.toList.takeWhile (fun c => ¬ (c = sep)))

/-- Second field of a separator-split string, Python `s.split(sep)[1]`:
the characters between the first separator and the next. -/
def splitField2 (sep : Char) (s : String) : String :=
  String.mk (((s.toList.dropWhile (fun c => ¬ (c = sep))).drop 1).takeWhile
    (fun c => ¬ (c = sep)))

/-- First component of a part-combination label: Python
`combo.split(',')[0]`.  Always defined (a split has a first element). -/
def comboUpper (combo : String) : String := splitField1 ',' combo

/-- Second component of a part-combination label: Python
`combo.split(',')[1]`.  The source would raise `IndexError` on a label
without a comma; labels are always of the `"i,j"` form there, and we
totalize with `""`. -/
def comboLower (combo : String) : String := splitField2 ',' combo

/-- Python `int(...)` on a digit string (non-digit input would raise;
labels' components are always digit strings). -/
def parseDigits (cs : List Char) : Option ℕ :=
  if cs ≠ [] ∧ cs.all Char.isDigit then
    some (cs.foldl (fun acc c => 10 * acc + (c.toNat - 48)) 0)
  else none

/-- Python `int(s)` for the nonnegative part indices of combination
labels. -/
def pyInt (s : String) : ℕ := (parseDigits s.toList).getD 0

/-- Embeds the pair-enumeration loop of `IntervalIndexer.run`
(src/analyzers/indexers/interval.py, lines 186-205): outer loop `left`
over `range(len(score))`, inner loop `right` over
`range(left + 1, len(score))`, appending `[left, right]`. -/
def IntervalIndexer_combinations (n : ℕ) : List (ℕ × ℕ) :=
  ((List.range n).map (fun left =>
    (List.range' (left + 1) (n - (left + 1))).map (fun right => (left, right)))).flatten

/-- Embeds Python-2 `str([left, right])`, the key under which
`IntervalIndexer.run` stores each result Series
(`post[str(combo)] = results[i]`). -/
def pyListStr (c : ℕ × ℕ) : String :=
  "[" ++ toString c.1 ++ ", " ++ toString c.2 ++ "]"

/-- The column labels `IntervalIndexer.run` produces, in enumeration
order. -/
def IntervalIndexer_run_labels (n : ℕ) : List String :=
  (IntervalIndexer_combinations n).map pyListStr

/- ------------------------------------------------------------------ -/
/- music21 pitch/interval model (external collaborator of              -/
/- src/analyzers/indexers/interval.py)                                 -/
/- ------------------------------------------------------------------ -/

/-- Letter-name to diatonic step (C=0 .. B=6), as music21 reads the
first character of a note name; any other character fails (this is the
`pitch.PitchException` path, e.g. for `'Rest'`). -/
def letterStep (c : Char) : Option ℕ :=
  if c = 'C' ∨ c = 'c' then some 0
  else if c = 'D' ∨ c = 'd' then some 1
  else if c = 'E' ∨ c = 'e' then some 2
  else if c = 'F' ∨ c = 'f' then some 3
  else if c = 'G' ∨ c = 'g' then some 4
  else if c = 'A' ∨ c = 'a' then some 5
  else if c = 'B' ∨ c = 'b' then some 6
  else none

/-- Semitone offset of each diatonic step within an octave
(C, D, E, F, G, A, B). -/
def stepPC (st : ℕ) : ℤ := [0, 2, 4, 5, 7, 9, 11].getD st 0

/-- A parsed pitch: diatonic step (0-6), chromatic alteration
(sharps positive, flats negative) and octave. -/
structure Pitch where
  step : ℕ
  alter : ℤ
  octave : ℤ
deriving DecidableEq, Repr

/-- Accidental characters after the letter: `'#'` sharpens, `'-'`
flattens (music21 notation), accumulating; stops at the first other
character. -/
def takeAccidentals : List Char → ℤ × List Char
  | '#' :: r => let p := takeAccidentals r; (p.1 + 1, p.2)
  | '-' :: r => let p := takeAccidentals r; (p.1 - 1, p.2)
  | r => (0, r)

/-- Model of `music21.note.Note(name)` pitch parsing for names of the
form letter, optional accidentals, octave digits (`"C4"`, `"E-4"`).
`none` models the `pitch.PitchException` that names such as `'Rest'`
raise, which `real_indexer` catches. -/
def parseNote (nm : String) : Option Pitch :=
  match nm.toList with
  | [] => none
  | c :: rest =>
    match letterStep c with
    | none => none
    | some st =>
      let p := takeAccidentals rest
      match parseDigits p.2 with
      | some oct => some ⟨st, p.1, (oct : ℤ)⟩
      | none => none

/-- Diatonic step number of a pitch on the infinite staff. -/
def Pitch.diatonic (p : Pitch) : ℤ := 7 * p.octave + (p.step : ℤ)

/-- Pitch space (MIDI number): C4 is 60, as in music21's `.ps`. -/
def Pitch.ps (p : Pitch) : ℤ :=
  12 * (p.octave + 1) + stepPC p.step + p.alter

/-- Model of `music21.interval.Interval(lo, hi).generic.undirected`:
the unsigned diatonic distance plus one. -/
def genericUndirected (lo hi : Pitch) : ℕ :=
  (hi.diatonic - lo.diatonic).natAbs + 1

/-- Unsigned semitone span of the interval from `lo` to `hi`. -/
def intervalSemitones (lo hi : Pitch) : ℕ := (hi.ps - lo.ps).natAbs

/-- Model of `Interval.direction`: ascending is positive.  Equal pitch
space falls back to the diatonic comparison (e.g. diminished seconds). -/
def intervalDirection (lo hi : Pitch) : ℤ :=
  if lo.ps < hi.ps then 1
  else if hi.ps < lo.ps then -1
  else if lo.diatonic < hi.diatonic then 1
  else if hi.diatonic < lo.diatonic then -1
  else 0

/-- Model of `GenericInterval.simpleUndirected`: reduce to one octave;
music21 maps an octave (8) to 1, which is why `real_indexer`
special-cases `8 == interv.generic.undirected`. -/
def simpleUndirected (g : ℕ) : ℕ := (g - 1) % 7 + 1

/-- Semitones of the perfect/major interval of each simple generic size
(index 1-7; index 0 unused). -/
def perfMajSemis (simple : ℕ) : ℤ := [0, 0, 2, 4, 5, 7, 9, 11].getD simple 0

/-- Model of the quality part of `Interval.name`: `P`/`M`/`m` for
perfect, major, minor, with `A`/`d` repeated for multiply augmented or
diminished intervals (music21 writes `AA`, `dd`, ...). -/
def qualityString (lo hi : Pitch) : String :=
  let g := genericUndirected lo hi
  let simple := simpleUndirected g
  let base := perfMajSemis simple + 12 * (((g : ℤ) - 1) / 7)
  let diff : ℤ := (intervalSemitones lo hi : ℤ) - base
  if simple = 1 ∨ simple = 4 ∨ simple = 5 then
    if diff = 0 then "P"
    else if 0 < diff then String.mk (List.replicate diff.toNat 'A')
    else String.mk (List.replicate (-diff).toNat 'd')
  else
    if diff = 0 then "M"
    else if diff = -1 then "m"
    else if 0 < diff then String.mk (List.replicate diff.toNat 'A')
    else String.mk (List.replicate (-diff - 1).toNat 'd')

/-- Model of `Interval.name` (undirected), e.g. `"M3"`, `"P5"`,
`"AA4"`. -/
def intervalName (lo hi : Pitch) : String :=
  qualityString lo hi ++ toString (genericUndirected lo hi)

/-- Embeds the `q_str` loop of `real_indexer`: keep exactly the
characters of `interv.name` that are one of `A`, `M`, `P`, `m`, `d`. -/
def qualityFilter (nm : String) : String :=
  String.mk (nm.toList.filter (fun c =>
    c = 'A' ∨ c = 'M' ∨ c = 'P' ∨ c = 'm' ∨ c = 'd'))

/-- Embeds `real_indexer(ecks, simple, qual)`
(src/analyzers/indexers/interval.py, lines 33-81).  `ecks` holds the
upper voice's event first and the lower voice's second; the interval is
built from the lower note to the upper.  `none` is the Python `None`
returned when `ecks` does not have exactly two elements; a failed pitch
parse (either voice resting) is the caught `PitchException`, returning
`"Rest"`. -/
def real_indexer (ecks : List String) (simple qual : Bool) : Option String :=
  match ecks with
  | [upper, lower] =>
    match parseNote lower, parseNote upper with
    | some lo, some hi =>
      let post0 := if intervalDirection lo hi < 0 then "-" else ""
      let post1 := if qual then post0 ++ qualityFilter (intervalName lo hi) else post0
      let g := genericUndirected lo hi
      some (if simple then
              (if g = 8 then post1 ++ "8" else post1 ++ toString (simpleUndirected g))
            else post1 ++ toString g)
    | _, _ => some "Rest"
  | _ => none

/-- Embeds `indexer_qual_simple(ecks)`: `real_indexer` with simple
intervals and quality. -/
def indexer_qual_simple (ecks : List String) : Option String :=
  real_indexer ecks true true

/- ------------------------------------------------------------------ -/
/- DissonanceIndexer constants and cell functions (dissonance.py)      -/
/- ------------------------------------------------------------------ -/

/-- The constant `DissonanceIndexer.CONSONANCES`.  Note that the
distinguished `'Rest'` token is a member. -/
def CONSONANCES : List Val :=
  [.s "Rest", .s "P1", .s "m3", .s "M3", .s "P5", .s "m6", .s "M6", .s "P8",
   .s "-m3", .s "-M3", .s "-P5", .s "-m6", .s "-M6", .s "-P8"]

/-- The constant `DissonanceIndexer._CONSONANCE_MAKERS`: the intervals
that, sounding below a perfect fourth's lower voice, make it consonant.
Thirds and the perfect fifth only — the source deliberately leaves
sixths out ("Putting in sixths caused some suspensions to be missed"). -/
def CONSONANCE_MAKERS : List Val := [.s "m3", .s "M3", .s "P5"]

/-- The constant `DissonanceIndexer._UPPER_VOICE_CONS_MAKERS`, used by
the upper-voice fallback search of `special_fourths`. -/
def UPPER_VOICE_CONS_MAKERS : List Val := [.s "P1", .s "P8"]

/-- Embeds `DissonanceIndexer.nan_consonance(simul)`
(src/vis/analyzers/indexers/dissonance.py, lines 638-653):
`simul.map(lambda x: nan if x in CONSONANCES else x)`.  A NaN cell is
not in the list (Python `nan == str` is false), so it passes through. -/
def nan_consonance (simul : List (String × Val)) : List (String × Val) :=
  simul.map (fun p => (p.1, if p.2 ∈ CONSONANCES then Val.na else p.2))

/-- Embeds `DissonanceIndexer.special_fourths(simul)`
(src/vis/analyzers/indexers/dissonance.py, lines 655-736).  For each
part combination holding `'P4'`: search the combinations whose first
component equals the fourth's lower voice for a member of
`_CONSONANCE_MAKERS`; only if none is found, search the combinations
whose first component equals the fourth's upper voice for a member of
`_UPPER_VOICE_CONS_MAKERS`; replace the fourth with NaN when either
search succeeds.  For `'-P4'` (voices crossed) the roles swap: the
"lower" voice is the label's first component, and there is no fallback
search.  Every iteration of the source loop reads only `simul`, so the
loop is a map. -/
def special_fourths (simul : List (String × Val)) : List (String × Val) :=
  simul.map (fun p =>
    if p.2 = Val.s "P4" then
      let lower_voice := comboLower p.1
      let foundLower := simul.any (fun poss =>
        comboUpper poss.1 = lower_voice ∧ poss.2 ∈ CONSONANCE_MAKERS)
      let found_one :=
        if foundLower then true
        else simul.any (fun poss =>
          comboUpper poss.1 = comboUpper p.1 ∧ poss.2 ∈ UPPER_VOICE_CONS_MAKERS)
      if found_one then (p.1, Val.na) else p
    else if p.2 = Val.s "-P4" then
      let lower_voice := comboUpper p.1
      let found_one := simul.any (fun poss =>
        comboUpper poss.1 = lower_voice ∧ poss.2 ∈ CONSONANCE_MAKERS)
      if found_one then (p.1, Val.na) else p
    else p)

/- ------------------------------------------------------------------ -/
/- SuspensionIndexer (dissonance.py)                                   -/
/- ------------------------------------------------------------------ -/

/-- The value `interval_to_int` produces: a signed interval size, the
`'Rest'` token passed through, or NaN passed through. -/
inductive IVal
  | na : IVal
  | rest : IVal
  | i (n : ℤ) : IVal
deriving DecidableEq, Repr

/-- Modelled from the spec: `interval_to_int` is imported by
dissonance.py from src/vis/analyzers/indexers/interval.py, a file that
is not under src/.  Per the spec's description of melodic/vertical
interval steps as signed integers ("a finite decision table over
melodic-interval steps"), it converts a directed interval name to its
signed size (`'M3'` to 3, `'-M3'` to -3), passing `'Rest'` and NaN
through unchanged. -/
def interval_to_int (v : Val) : IVal :=
  match v with
  | .na => .na
  | .q _ => .na
  | .s st =>
    if st = "Rest" then .rest
    else
      let cs := st.toList
      let neg := cs.headD ' ' = '-'
      let body := if neg then cs.drop 1 else cs
      match parseDigits (body.filter Char.isDigit) with
      | some n => .i (if neg then -(n : ℤ) else (n : ℤ))
      | none => .na

/-- Python `==` between an `interval_to_int` result and another: two
integers compare numerically, `'Rest' == 'Rest'` is true, and NaN never
equals anything. -/
def IVal.eqv : IVal → IVal → Bool
  | .i a, .i b => a = b
  | .rest, .rest => true
  | _, _ => false

/-- Python `>=` between an `interval_to_int` result and an integer.
NaN comparisons are false; in Python 2 a string compares greater than
any int, so `'Rest'` gives true (the classifiers only reach this after
ruling the Rest token out). -/
def IVal.geInt : IVal → ℤ → Bool
  | .i a, m => m ≤ a
  | .rest, _ => true
  | .na, _ => false

/-- Python `+` on `interval_to_int` results as the classifiers use it:
integer addition, with NaN absorbing.  (`'Rest' + int` would raise; the
classifiers only add after ruling the Rest token out.) -/
def IVal.add : IVal → IVal → IVal
  | .i a, .i b => .i (a + b)
  | _, _ => .na

/-- Python `-` on `interval_to_int` results, NaN absorbing. -/
def IVal.sub : IVal → IVal → IVal
  | .i a, .i b => .i (a - b)
  | _, _ => .na

/-- Python `>` on beat strengths (floats or NaN): any comparison with
NaN is false. -/
def optGt : Option ℚ → Option ℚ → Bool
  | some a, some b => b < a
  | _, _ => false

/-- Python `==` on beat strengths: NaN equals nothing, itself included. -/
def optEqv : Option ℚ → Option ℚ → Bool
  | some a, some b => a = b
  | _, _ => false

/-- One aligned row of the `DataFrame` the dissonance classifiers
iterate over: the sub-series of the four indexers they read.  `diss`
(results of `dissonance.ConsMakerIndexer`) and `vint` (results of
`interval.IntervalIndexer`) are combination-labelled; `horiz` (results
of `interval.HorizontalIntervalIndexer`) and `beat` (results of
`metre.NoteBeatStrengthIndexer`) are read by part position.  A `beat`
of `none` is NaN. -/
structure DissRow where
  diss : List (String × Val)
  vint : List (String × Val)
  horiz : ℕ → Val
  beat : ℕ → Option ℚ

/-- Lookup of a combination-labelled sub-series, Python
`row[indexer][combo]`.  A missing key would be a pandas `KeyError`; all
rows of one run share the same combination labels, and we totalize with
NaN. -/
def lookupVal (ser : List (String × Val)) (combo : String) : Val :=
  match ser.find? (fun p => p.1 = combo) with
  | some p => p.2
  | none => .na

/-- The dissonance test shared by the classifier functions:
`isinstance(x, basestring) or not isnan(x)` — true for any string and
any (non-NaN) number. -/
def isDiss (v : Val) : Bool :=
  match v with
  | .s _ => true
  | .q _ => true
  | .na => false

/-- Label constant `_SUSP_SUSP_LABEL`. -/
def SUSP_SUSP_LABEL : String := "SUSP"

/-- Label constant `_SUSP_FAKE_LABEL`. -/
def SUSP_FAKE_LABEL : String := "FSUS"

/-- Label constant `_SUSP_OTHER_LABEL` (a string by contract, because
`ReconciliationIndexer` distinguishes it from NaN). -/
def SUSP_OTHER_LABEL : String := "o"

/-- Label constant `_NEIGH_OTHER_LABEL`. -/
def NEIGH_OTHER_LABEL : String := "o"

/-- Label constant `_PASS_OTHER_LABEL`. -/
def PASS_OTHER_LABEL : String := "o"

/-- Label constant `_CAMB_OTHER_LABEL`. -/
def CAMB_OTHER_LABEL : String := "o"

/-- The beat strength the classifiers attribute to a row for one pair:
the upper part's entry unless it is NaN, in which case the lower
part's (`row[beat_ind][lower_i] if isnan(row[beat_ind][upper_i]) else
row[beat_ind][upper_i]`). -/
def beatOf (row : DissRow) (upper_i lower_i : ℕ) : Option ℚ :=
  match row.beat upper_i with
  | none => row.beat lower_i
  | some v => some v

/-- Embeds `susp_ind_func(obj)`
(src/vis/analyzers/indexers/dissonance.py, lines 211-294): the 3-row
suspension decision table.  The output row is indexed like
`row_one[diss_ind]`; for each pair it is NaN when the middle row holds
no dissonance there or when the figure involves a rest, a voice-tagged
`SUSP`/`FSUS` label for a recognized (fake) suspension, and the string
`'o'` otherwise. -/
def susp_ind_func (row_one row_two row_three : DissRow) :
    List (String × Val) :=
  row_one.diss.map (fun pr =>
    let combo := pr.1
    let lower_i := pyInt (comboLower combo)
    let upper_i := pyInt (comboUpper combo)
    if isDiss (lookupVal row_two.diss combo) then
      let a := interval_to_int (row_two.horiz upper_i)
      let b := interval_to_int (row_three.horiz upper_i)
      let x := interval_to_int (row_two.horiz lower_i)
      let d := interval_to_int (lookupVal row_two.diss combo)
      let y := interval_to_int (row_three.horiz lower_i)
      let z := interval_to_int (lookupVal row_three.vint combo)
      let bs1 := beatOf row_one upper_i lower_i
      let bs2 := beatOf row_two upper_i lower_i
      let bs3 := beatOf row_three upper_i lower_i
      if b = .rest ∨ d = .rest ∨ y = .rest ∨ z = .rest then
        (combo, Val.na)
      else if x.eqv (.i 1) ∧
              ((b.geInt 1 ∧ (d.add b).eqv z) ∨ ((d.add b).add (.i 2)).eqv z) ∧
              optGt bs2 bs3 then
        (combo, Val.s (toString lower_i ++ ":" ++ SUSP_SUSP_LABEL))
      else if (a.eqv (.i 2) ∨ a.eqv (.i (-2))) ∧
              (x.eqv (.i 1) ∨ x.eqv (.i 8) ∨ x.eqv (.i (-8))) ∧ d.eqv (.i 4) ∧
              (y.eqv (.i 1) ∨ y.eqv (.i 8) ∨ y.eqv (.i (-8))) ∧
              ((b.eqv (.i 1) ∧ z.eqv (.i 4) ∧ optGt bs1 bs2 ∧ optGt bs3 bs2) ∨
               (b.eqv (.i (-2)) ∧ z.eqv (.i 3) ∧ optGt bs1 bs2 ∧ optEqv bs3 bs2)) then
        (combo, Val.s (toString upper_i ++ ":" ++ SUSP_FAKE_LABEL))
      else if a.eqv (.i 1) ∧
              ((y.geInt 1 ∧ ((d.sub y).eqv z ∨ (d.eqv (.i 2) ∧ z.eqv (.i 8)))) ∨
               ((d.sub y).sub (.i 2)).eqv z ∨
               ((y.eqv (.i 8) ∨ y.eqv (.i (-8))) ∧ (d.sub (.i 1)).eqv z)) ∧
              optGt bs2 bs3 then
        (combo, Val.s (toString upper_i ++ ":" ++ SUSP_SUSP_LABEL))
      else
        (combo, Val.s SUSP_OTHER_LABEL)
    else
      (combo, Val.na))

/-- The boundary row `SuspensionIndexer.run` seeds: a Series of the
`_SUSP_NODISS_LABEL` NaN sentinel over the same combination index as
the computed rows (`pandas.Series([_SUSP_NODISS_LABEL ...],
index=post[1].index)`). -/
def sentinelRow (template : List (String × Val)) : List (String × Val) :=
  template.map (fun p => (p.1, Val.na))

/-- A row with no content, standing for the out-of-range access the
source cannot reach (its constructor guarantees at least 3 rows). -/
def emptyRow : DissRow where
  diss := []
  vint := []
  horiz := fun _ => Val.na
  beat := fun _ => none

/-- Embeds `SuspensionIndexer.run`
(src/vis/analyzers/indexers/dissonance.py, lines 955-987), as the list
of output rows.  `post` starts as NaN placeholders (here `none`); the
loop writes `susp_ind_func` of each full 3-row window to the window's
middle position (`post[i + 1]`); then positions `0` and `-1` are
overwritten with the NaN sentinel row.  For the at-least-3-row inputs
the constructor admits, every position ends up written. -/
def SuspensionIndexer_run (rows : List DissRow) :
    List (Option (List (String × Val))) :=
  let n := rows.length
  let looped := (List.range (n - 2)).foldl
    (fun post i =>
      post.set (i + 1)
        (some (susp_ind_func (rows.getD i emptyRow)
          (rows.getD (i + 1) emptyRow) (rows.getD (i + 2) emptyRow))))
    (List.replicate n none)
  let template := (looped.getD 1 none).getD []
  ((looped.set 0 (some (sentinelRow template))).set (n - 1)
    (some (sentinelRow template)))

/- ------------------------------------------------------------------ -/
/- ReconciliationIndexer (dissonance.py)                               -/
/- ------------------------------------------------------------------ -/

/-- One row of the `DataFrame` given to `ReconciliationIndexer`: the
same-offset sub-series of the four figure detectors
(`dissonance.SuspensionIndexer`, `dissonance.NeighbourNoteIndexer`,
`dissonance.PassingNoteIndexer`, `dissonance.NotaCambiataIndexer`),
each labelled by part combination. -/
structure RecRow where
  susp : List (String × Val)
  neigh : List (String × Val)
  passn : List (String × Val)
  camb : List (String × Val)

/-- The four "other" sentinels `reconciliation_func` filters against. -/
def OTHER_LABELS : List String :=
  [SUSP_OTHER_LABEL, NEIGH_OTHER_LABEL, PASS_OTHER_LABEL, CAMB_OTHER_LABEL]

/-- Update an existing key of the `post` dict (Python
`post[key] = v`; every key written is one of the parts collected from
the combination labels, so no insertion happens). -/
def setPart (post : List (String × Option String)) (key : String)
    (v : Option String) : List (String × Option String) :=
  post.map (fun p => if p.1 = key then (p.1, v) else p)

/-- Read `post[key]`; `none` (missing key) would be a Python
`KeyError` and is unreachable for the keys the source reads. -/
def findPart (post : List (String × Option String)) (key : String) :
    Option (Option String) :=
  (post.find? (fun p => p.1 = key)).map Prod.snd

/-- The merge `reconciliation_func` performs for one pair's collected
classifications, updating the per-voice `post` dict: each non-"other"
signature `"v:FIG"` assigns `FIG` to voice `v`, overwriting `None` or
an "other" marker, and concatenating with `','` when a different real
figure is already present. -/
def applySignatures (signatures : List String)
    (post : List (String × Option String)) :
    List (String × Option String) :=
  signatures.foldl (fun p sg =>
    let voice := splitField1 ':' sg
    let fig := splitField2 ':' sg
    match findPart p voice with
    | none => p
    | some none => setPart p voice (some fig)
    | some (some cur) =>
      if cur ∈ OTHER_LABELS then setPart p voice (some fig)
      else if cur ≠ fig then setPart p voice (some (cur ++ "," ++ fig))
      else p) post

/-- Embeds `reconciliation_func(obj)`
(src/vis/analyzers/indexers/dissonance.py, lines 515-587).  The parts
dict is keyed by both components of every combination label of the
suspension sub-series (Python builds a `set`; we keep first-appearance
order, which the claims do not depend on).  Per combination: collect
the four detectors' values, dropping NaN (the source's debug `print`
statements do not affect the result); when every collected value is an
"other" marker, both of the pair's voices get `'o'` (the `for...else`);
then the non-"other" signatures are applied.  The detectors only emit
strings or NaN, so only string values participate. -/
def reconciliation_func (obj : RecRow) : List (String × Option String) :=
  let parts := ((obj.susp.map (fun pr =>
    [comboUpper pr.1, comboLower pr.1])).flatten).dedup
  let init : List (String × Option String) := parts.map (fun p => (p, none))
  obj.susp.foldl (fun post pr =>
    let combo := pr.1
    let combowise :=
      ([lookupVal obj.susp combo, lookupVal obj.neigh combo,
        lookupVal obj.passn combo, lookupVal obj.camb combo]).filterMap
        (fun v => match v with | .s st => some st | _ => none)
    if combowise = [] then post
    else
      let allOther := combowise.all (fun sg => sg ∈ OTHER_LABELS)
      let post1 :=
        if allOther then
          setPart (setPart post (comboUpper combo) (some "o"))
            (comboLower combo) (some "o")
        else post
      applySignatures (combowise.filter (fun sg => sg ∉ OTHER_LABELS)) post1)
    init

/- ------------------------------------------------------------------ -/
/- Lemmas on the merged offset axis                                    -/
/- ------------------------------------------------------------------ -/

/-- Membership in a merged index is membership in either input. -/
theorem mem_mergeUnion {a : ℚ} : ∀ {l1 l2 : List ℚ},
    a ∈ mergeUnion l1 l2 ↔ a ∈ l1 ∨ a ∈ l2 := by
  intro l1 l2
  induction l1, l2 using mergeUnion.induct with
  | case1 l2 => simp [mergeUnion]
  | case2 l1 => simp [mergeUnion]
  | case3 x l1 b l2 h ih => simp [mergeUnion, h, ih]; tauto
  | case4 x l1 b l2 h h2 ih => simp [mergeUnion, h, h2, ih]; tauto
  | case5 x l1 b l2 h h2 ih =>
    have hxb : x = b := le_antisymm (not_lt.1 h2) (not_lt.1 h)
    simp [mergeUnion, h, h2, ih, hxb]
    tauto

/-- Merging two strictly ascending indexes yields a strictly ascending
index. -/
theorem sorted_mergeUnion : ∀ {l1 l2 : List ℚ}, l1.Sorted (· < ·) →
    l2.Sorted (· < ·) → (mergeUnion l1 l2).Sorted (· < ·) := by
  intro l1 l2 h1 h2
  induction l1, l2 using mergeUnion.induct with
  | case1 l2 => simpa [mergeUnion] using h2
  | case2 l1 => simpa [mergeUnion] using h1
  | case3 x l1 b l2 h ih =>
    rw [List.sorted_cons] at h1
    simp only [mergeUnion, if_pos h]
    rw [List.sorted_cons]
    refine ⟨?_, ih h1.2 h2⟩
    intro y hy
    rcases mem_mergeUnion.1 hy with hy1 | hy2
    · exact h1.1 y hy1
    · rcases List.mem_cons.1 hy2 with rfl | hy3
      · exact h
      · exact lt_trans h ((List.sorted_cons.1 h2).1 y hy3)
  | case4 x l1 b l2 h h2b ih =>
    rw [List.sorted_cons] at h2
    simp only [mergeUnion, if_neg h, if_pos h2b]
    rw [List.sorted_cons]
    refine ⟨?_, ih h1 h2.2⟩
    intro y hy
    rcases mem_mergeUnion.1 hy with hy1 | hy2
    · rcases List.mem_cons.1 hy1 with rfl | hy3
      · exact h2b
      · exact lt_trans h2b ((List.sorted_cons.1 h1).1 y hy3)
    · exact h2.1 y hy2
  | case5 x l1 b l2 h h2b ih =>
    have hxb : x = b := le_antisymm (not_lt.1 h2b) (not_lt.1 h)
    rw [List.sorted_cons] at h1 h2
    simp only [mergeUnion, if_neg h, if_neg h2b]
    rw [List.sorted_cons]
    refine ⟨?_, ih h1.2 h2.2⟩
    intro y hy
    rcases mem_mergeUnion.1 hy with hy1 | hy2
    · exact h1.1 y hy1
    · rw [hxb]; exact h2.1 y hy2

/-- Membership in the running union fold, generalized over the
accumulator. -/
theorem mem_foldl_mergeUnion : ∀ (sers : List Series) (init : List ℚ) (a : ℚ),
    a ∈ sers.foldl (fun acc se => mergeUnion acc se.offsets) init ↔
      a ∈ init ∨ ∃ se ∈ sers, a ∈ se.offsets := by
  intro sers
  induction sers with
  | nil => intro init a; simp
  | cons s rest ih =>
    intro init a
    simp only [List.foldl_cons, ih, mem_mergeUnion, List.mem_cons]
    constructor
    · rintro ((h | h) | ⟨se, hs, ha⟩)
      · exact Or.inl h
      · exact Or.inr ⟨s, Or.inl rfl, h⟩
      · exact Or.inr ⟨se, Or.inr hs, ha⟩
    · rintro (h | ⟨se, (rfl | hs), ha⟩)
      · exact Or.inl (Or.inl h)
      · exact Or.inl (Or.inr ha)
      · exact Or.inr ⟨se, hs, ha⟩

/-- Sortedness of the running union fold, generalized over the
accumulator. -/
theorem sorted_foldl_mergeUnion : ∀ (sers : List Series) (init : List ℚ),
    init.Sorted (· < ·) → (∀ se ∈ sers, se.offsets.Sorted (· < ·)) →
    (sers.foldl (fun acc se => mergeUnion acc se.offsets) init).Sorted (· < ·) := by
  intro sers
  induction sers with
  | nil => intro init h0 _; simpa using h0
  | cons s rest ih =>
    intro init h0 h
    simp only [List.foldl_cons]
    exact ih _ (sorted_mergeUnion h0 (h s (List.mem_cons_self s rest)))
      (fun se hs => h se (List.mem_cons_of_mem s hs))

/-- An offset is on the concat axis iff some input series holds it. -/
theorem mem_axisFold (sers : List Series) (a : ℚ) :
    a ∈ axisFold sers ↔ ∃ se ∈ sers, a ∈ se.offsets := by
  simpa [axisFold] using mem_foldl_mergeUnion sers [] a

/-- The concat axis of strictly ascending inputs is strictly
ascending. -/
theorem sorted_axisFold (sers : List Series)
    (h : ∀ se ∈ sers, se.offsets.Sorted (· < ·)) :
    (axisFold sers).Sorted (· < ·) :=
  sorted_foldl_mergeUnion sers [] (by simp) h

/-- Membership in an append-fold of lists. -/
theorem mem_foldr_append (L : List (List ℚ)) (a : ℚ) :
    a ∈ L.foldr (· ++ ·) [] ↔ ∃ l ∈ L, a ∈ l := by
  induction L with
  | nil => simp
  | cons x rest ih => simp [ih]

/-- An offset is on the spec's union axis iff some input series holds
it. -/
theorem mem_specUnionAxis (sers : List Series) (a : ℚ) :
    a ∈ specUnionAxis sers ↔ ∃ se ∈ sers, a ∈ se.offsets := by
  simp [specUnionAxis, List.mem_dedup, List.mem_insertionSort, mem_foldr_append]

/-- The spec's union axis is sorted. -/
theorem sorted_le_specUnionAxis (sers : List Series) :
    (specUnionAxis sers).Sorted (· ≤ ·) := by
  have h := List.sorted_insertionSort (α := ℚ) (· ≤ ·)
    ((sers.map Series.offsets).foldr (· ++ ·) [])
  exact List.Pairwise.sublist (List.dedup_sublist _) h

/-- Refinement: for strictly ascending inputs, the axis the code's
union fold builds is exactly the spec's sorted duplicate-free union. -/
theorem axisFold_eq_specUnionAxis (sers : List Series)
    (h : ∀ se ∈ sers, se.offsets.Sorted (· < ·)) :
    axisFold sers = specUnionAxis sers := by
  have hs1 : (axisFold sers).Sorted (· < ·) := sorted_axisFold sers h
  have hn1 : (axisFold sers).Nodup := hs1.nodup
  have hn2 : (specUnionAxis sers).Nodup := List.nodup_dedup _
  have hperm : List.Perm (axisFold sers) (specUnionAxis sers) :=
    (List.perm_ext_iff_of_nodup hn1 hn2).2
      (fun a => by rw [mem_axisFold, mem_specUnionAxis])
  exact List.eq_of_perm_of_sorted hperm (hs1.imp le_of_lt)
    (sorted_le_specUnionAxis sers)

/-- Reindexing marks offsets a series does not contain as NaN. -/
theorem findVal_not_mem {entries : List (ℚ × Val)} {o : ℚ}
    (h : o ∉ entries.map Prod.fst) : findVal entries o = Val.na := by
  induction entries with
  | nil => rfl
  | cons e rest ih =>
    simp only [List.map_cons, List.mem_cons, not_or] at h
    have hne : ¬ (e.1 = o) := fun he => h.1 (Eq.symm he)
    simp only [findVal, if_neg hne]
    exact ih h.2

/- ------------------------------------------------------------------ -/
/- Claim theorems                                                      -/
/- ------------------------------------------------------------------ -/

/-- C1: for an indexer run over per-voice series with finite
(ascending) offset sets, `Indexer.make_return` assembles one table
whose offset axis is the sorted, duplicate-free union of the inputs'
offsets; every column is reindexed onto exactly that shared axis (all
columns have the axis's length), and at an offset a column does not
originally contain the cell is the NaN "absent" marker, rather than the
row being omitted. -/
theorem make_return_alignment_union (labels : List String) (sers : List Series)
    (hlen : labels.length = sers.length)
    (hsort : ∀ se ∈ sers, se.offsets.Sorted (· < ·)) :
    make_return labels (Indices.sl sers) =
      Except.ok
        { names := labels
          axis := specUnionAxis sers
          cols := sers.map (fun se => (specUnionAxis sers).map (findVal se.entries)) } ∧
    (∀ c ∈ (concatAxis1 sers).cols, c.length = (concatAxis1 sers).axis.length) ∧
    (∀ se ∈ sers, ∀ o ∈ specUnionAxis sers, o ∉ se.offsets →
      findVal se.entries o = Val.na) := by
  have hax : axisFold sers = specUnionAxis sers := axisFold_eq_specUnionAxis sers hsort
  refine ⟨?_, ?_, ?_⟩
  · simp [make_return, hlen, concatAxis1, hax]
  · intro c hc
    simp only [concatAxis1, List.mem_map] at hc
    obtain ⟨se, _, rfl⟩ := hc
    simp [concatAxis1]
  · intro se _ o _ ho
    exact findVal_not_mem (by simpa [Series.offsets] using ho)

/-- Witness for C1: two concrete voices with offset sets {0, 1} and
{1/2, 1}, aligned by `make_return` onto the union axis. -/
theorem make_return_alignment_union_witness :
    ((["0", "1"] : List String).length =
      [Series.mk [(0, Val.s "C4"), (1, Val.s "D4")],
       Series.mk [(1, Val.s "E4"), (2, Val.s "F4")]].length) ∧
    (∀ se ∈ [Series.mk [(0, Val.s "C4"), (1, Val.s "D4")],
        Series.mk [(1, Val.s "E4"), (2, Val.s "F4")]],
      se.offsets.Sorted (· < ·)) ∧
    make_return ["0", "1"]
        (Indices.sl [Series.mk [(0, Val.s "C4"), (1, Val.s "D4")],
          Series.mk [(1, Val.s "E4"), (2, Val.s "F4")]]) =
      Except.ok
        { names := ["0", "1"]
          axis := specUnionAxis [Series.mk [(0, Val.s "C4"), (1, Val.s "D4")],
            Series.mk [(1, Val.s "E4"), (2, Val.s "F4")]]
          cols := [Series.mk [(0, Val.s "C4"), (1, Val.s "D4")],
            Series.mk [(1, Val.s "E4"), (2, Val.s "F4")]].map
            (fun se => (specUnionAxis [Series.mk [(0, Val.s "C4"), (1, Val.s "D4")],
              Series.mk [(1, Val.s "E4"), (2, Val.s "F4")]]).map
                (findVal se.entries)) } :=
  ⟨by decide, by decide,
    (make_return_alignment_union _ _ (by decide) (by decide)).1⟩

/-- C2 counterexample: for 4 voices, the column labels
`IntervalIndexer.run` produces are Python `str([left, right])` strings,
not the claimed `"i,j"` strings, so the claimed label list is wrong. -/
theorem interval_labels_counterexample :
    IntervalIndexer_run_labels 4 ≠
      ["0,1", "0,2", "0,3", "1,2", "1,3", "2,3"] := by decide

/-- C2 (amended): for 4 voices, `IntervalIndexer.run` enumerates voice
pairs with the upper index ascending in the outer loop and the lower
index ascending from upper+1 in the inner loop — exactly (0,1), (0,2),
(0,3), (1,2), (1,3), (2,3) — and the result keys, in that enumeration
order, are the `str([left, right])` labels `"[0, 1]"`, ...,
`"[2, 3]"`. -/
theorem interval_pair_order :
    IntervalIndexer_combinations 4 =
      [(0, 1), (0, 2), (0, 3), (1, 2), (1, 3), (2, 3)] ∧
    IntervalIndexer_run_labels 4 =
      ["[0, 1]", "[0, 2]", "[0, 3]", "[1, 2]", "[1, 3]", "[2, 3]"] := by decide

/-- C3 counterexample: pair `"1,2"` is rooted on the fourth's lower
voice (voice 1) and forms a major sixth, yet `special_fourths` keeps
the `'P4'` of pair `"0,1"` dissonant — sixths are not consonance
makers in the code, refuting the claimed
"third, fifth, or sixth" iff. -/
theorem special_fourths_counterexample :
    special_fourths [("0,1", Val.s "P4"), ("1,2", Val.s "M6")] =
      [("0,1", Val.s "P4"), ("1,2", Val.s "M6")] ∧
    comboUpper "1,2" = comboLower "0,1" ∧ Val.s "P4" ≠ Val.na := by decide

/-- C3 (amended): a `'P4'` cell of a simultaneity is replaced by NaN
(reclassified consonant) iff some pair rooted on the fourth's lower
voice forms a minor third, major third, or perfect fifth, or — only
when no such lower-rooted maker exists — some pair rooted on the
fourth's upper voice forms a unison or octave (the voice-crossing
fallback). -/
theorem special_fourths_characterization (simul : List (String × Val))
    (k : ℕ) (combo : String)
    (h : simul[k]? = some (combo, Val.s "P4")) :
    (special_fourths simul)[k]? = some (combo, Val.na) ↔
      ((∃ p ∈ simul, comboUpper p.1 = comboLower combo ∧
          p.2 ∈ CONSONANCE_MAKERS) ∨
       (¬ (∃ p ∈ simul, comboUpper p.1 = comboLower combo ∧
          p.2 ∈ CONSONANCE_MAKERS) ∧
        ∃ p ∈ simul, comboUpper p.1 = comboUpper combo ∧
          p.2 ∈ UPPER_VOICE_CONS_MAKERS)) := by
  simp only [special_fourths, List.getElem?_map, h, Option.map_some]
  by_cases hL : ∃ p ∈ simul, comboUpper p.1 = comboLower combo ∧
      p.2 ∈ CONSONANCE_MAKERS
  · have hb : (simul.any fun poss =>
        comboUpper poss.1 = comboLower combo ∧ poss.2 ∈ CONSONANCE_MAKERS) = true := by
      rw [List.any_eq_true]
      obtain ⟨p, hp, h1, h2⟩ := hL
      exact ⟨p, hp, by simp [h1, h2]⟩
    simp [hb, hL]
  · have hb : (simul.any fun poss =>
        comboUpper poss.1 = comboLower combo ∧ poss.2 ∈ CONSONANCE_MAKERS) = false := by
      rw [List.any_eq_false]
      intro p hp
      simp only [decide_eq_true_eq, not_and]
      intro h1 h2
      exact hL ⟨p, hp, h1, h2⟩
    by_cases hU : ∃ p ∈ simul, comboUpper p.1 = comboUpper combo ∧
        p.2 ∈ UPPER_VOICE_CONS_MAKERS
    · have hb2 : (simul.any fun poss =>
          comboUpper poss.1 = comboUpper combo ∧
            poss.2 ∈ UPPER_VOICE_CONS_MAKERS) = true := by
        rw [List.any_eq_true]
        obtain ⟨p, hp, h1, h2⟩ := hU
        exact ⟨p, hp, by simp [h1, h2]⟩
      simp [hb, hb2, hL, hU]
    · have hb2 : (simul.any fun poss =>
          comboUpper poss.1 = comboUpper combo ∧
            poss.2 ∈ UPPER_VOICE_CONS_MAKERS) = false := by
        rw [List.any_eq_false]
        intro p hp
        simp only [decide_eq_true_eq, not_and]
        intro h1 h2
        exact hU ⟨p, hp, h1, h2⟩
      simp [hb, hb2, hL, hU]

/-- Witness for C3 (amended): a fourth over a lower-rooted major third
is reclassified. -/
theorem special_fourths_characterization_witness :
    (([("0,1", Val.s "P4"), ("1,2", Val.s "M3")] :
        List (String × Val))[0]? = some ("0,1", Val.s "P4")) ∧
    ((special_fourths [("0,1", Val.s "P4"), ("1,2", Val.s "M3")])[0]? =
        some ("0,1", Val.na) ↔
      ((∃ p ∈ ([("0,1", Val.s "P4"), ("1,2", Val.s "M3")] :
          List (String × Val)), comboUpper p.1 = comboLower "0,1" ∧
          p.2 ∈ CONSONANCE_MAKERS) ∨
       (¬ (∃ p ∈ ([("0,1", Val.s "P4"), ("1,2", Val.s "M3")] :
          List (String × Val)), comboUpper p.1 = comboLower "0,1" ∧
          p.2 ∈ CONSONANCE_MAKERS) ∧
        ∃ p ∈ ([("0,1", Val.s "P4"), ("1,2", Val.s "M3")] :
          List (String × Val)), comboUpper p.1 = comboUpper "0,1" ∧
          p.2 ∈ UPPER_VOICE_CONS_MAKERS))) :=
  ⟨by decide, special_fourths_characterization _ 0 "0,1" (by decide)⟩

/-- C4: running `SuspensionIndexer` over a table with exactly 5 offsets
yields 5 rows of which the first and the last carry the numeric NaN
"no dissonance" sentinel in every pair column (and NaN is not the
`'o'` "other" string), while the three interior rows carry exactly the
value `susp_ind_func` computes from their 3-row windows. -/
theorem suspension_window_boundaries (r0 r1 r2 r3 r4 : DissRow) :
    SuspensionIndexer_run [r0, r1, r2, r3, r4] =
      [some (sentinelRow (susp_ind_func r0 r1 r2)),
       some (susp_ind_func r0 r1 r2),
       some (susp_ind_func r1 r2 r3),
       some (susp_ind_func r2 r3 r4),
       some (sentinelRow (susp_ind_func r0 r1 r2))] ∧
    (∀ pr ∈ sentinelRow (susp_ind_func r0 r1 r2), pr.2 = Val.na) ∧
    Val.na ≠ Val.s SUSP_OTHER_LABEL := by
  refine ⟨rfl, ?_, by decide⟩
  intro pr hpr
  simp only [sentinelRow, List.mem_map] at hpr
  obtain ⟨p, _, rfl⟩ := hpr
  rfl

/-- C5: the `SuspensionIndexer` constructor fails (with its
`RuntimeError` text) exactly when the input has fewer than 3 event
offsets, and the `NotaCambiataIndexer` constructor exactly when the
input has fewer than 4 — the error is raised at construction time, so
`run`'s windowed iteration is never entered on a too-short input. -/
theorem window_too_short_at_construction (n m : ℕ) :
    (SuspensionIndexer_init n = Except.error SUSP_TOO_SHORT_ERROR ↔ n < 3) ∧
    (NotaCambiataIndexer_init m = Except.error CAMB_TOO_SHORT_ERROR ↔ m < 4) := by
  constructor
  · by_cases h : n < 3 <;> simp [SuspensionIndexer_init, h]
  · by_cases h : m < 4 <;> simp [NotaCambiataIndexer_init, h]

/-- C6: given a list of column labels and a parallel list of per-column
series of differing lengths, `Indexer.make_return` fails with its
`IndexError`, before the `pandas.concat` alignment computation runs. -/
theorem make_return_shape_mismatch (labels : List String) (sers : List Series)
    (h : labels.length ≠ sers.length) :
    make_return labels (Indices.sl sers) = Except.error MAKE_RETURN_INDEX_ERR := by
  simp [make_return, h]

/-- Witness for C6: two labels against one series. -/
theorem make_return_shape_mismatch_witness :
    ((["0", "1"] : List String).length ≠ ([⟨[]⟩] : List Series).length) ∧
    make_return ["0", "1"] (Indices.sl [⟨[]⟩]) =
      Except.error MAKE_RETURN_INDEX_ERR :=
  ⟨by decide, make_return_shape_mismatch _ _ (by decide)⟩

/-- C7 counterexample: the dissonance classification stage does not
keep Rest distinct from the NaN "absent" marker —
`DissonanceIndexer.CONSONANCES` contains `'Rest'`, so `nan_consonance`
maps a Rest cell to NaN. -/
theorem rest_conflated_counterexample :
    nan_consonance [("0,1", Val.s "Rest")] = [("0,1", Val.na)] ∧
    Val.na ≠ Val.s "Rest" := by decide

/-- C7 (amended): the pairwise interval transform `real_indexer` does
propagate the Rest token exactly — whenever either voice's event is
`"Rest"` the output is exactly `"Rest"`, never a computed interval and
never absent, for every setting — but `nan_consonance` then treats
`'Rest'` as a consonance and replaces it with NaN, so the classification
stage conflates Rest with the absent marker. -/
theorem rest_propagation (other : String) (simple qual : Bool) :
    real_indexer [other, "Rest"] simple qual = some "Rest" ∧
    real_indexer ["Rest", other] simple qual = some "Rest" ∧
    nan_consonance [("0,1", Val.s "Rest")] = [("0,1", Val.na)] := by
  have hrest : parseNote "Rest" = none := rfl
  refine ⟨?_, ?_, by decide⟩
  · cases hother : parseNote other <;> simp [real_indexer, hrest, hother]
  · cases hother : parseNote other <;> simp [real_indexer, hrest, hother]

/-- C8: with quality and simple intervals, the pair cell function on
upper voice E4 over lower voice C4 yields exactly `"M3"`, and with the
two pitches exchanged (upper below lower) exactly `"-M3"`. -/
theorem interval_roundtrip_major_third :
    indexer_qual_simple ["E4", "C4"] = some "M3" ∧
    indexer_qual_simple ["C4", "E4"] = some "-M3" := by decide

/-- C9: reconciling a row where the neighbour-note detector classifies
pair `"0,1"` as `"0:UN"` and every other detector reports the `'o'`
"other" sentinel for that pair assigns voice 0 exactly `"UN"` (the real
figure wins, discarding "other") and leaves voice 1 unassigned. -/
theorem reconciliation_un_wins :
    reconciliation_func ⟨[("0,1", Val.s "o")], [("0,1", Val.s "0:UN")],
        [("0,1", Val.s "o")], [("0,1", Val.s "o")]⟩ =
      [("0", some "UN"), ("1", none)] := by decide

/-- C10: constructing `Windexer` with `settings=None` always succeeds,
adopting the defaults with no window-size validation at all (also on
inputs shorter than the default window size 4), and the bare
`RuntimeError` is raised exactly when an explicit settings dict carries
a `window_size` larger than the input's length. -/
theorem windexer_none_skips_validation (n : ℕ) :
    Windexer_init n none = Except.ok Windexer_default_settings ∧
    (∀ st : WindexerSettings,
      Windexer_init n (some st) = Except.error () ↔ n < st.window_size) := by
  refine ⟨rfl, ?_⟩
  intro st
  by_cases h : st.window_size > n <;> simp [Windexer_init, h]

end Vis
